import Mathlib

/-
  Verification of the business-parameter mapping and validation layer of the
  ERPNext-MCP repository, embedded shallowly in Lean 4.

  Records (Python dicts) are modelled as ordered association lists over String
  keys, with insertion semantics matching CPython dicts: assigning to an
  existing key replaces its value in place, assigning to a fresh key appends.
-/

namespace ERPNextMCP

/-- Loosely-typed value, mirroring the JSON-like values flowing through the
Python code: None, booleans, strings, integers, decimal numbers
(mantissa times ten to the minus scale), lists and nested string-keyed
mappings. The mapping layer never inspects values, only key names. -/
inductive Value where
  | null : Value
  | bool (b : Bool) : Value
  | str (s : String) : Value
  | int (n : Int) : Value
  | decimal (mantissa : Int) (scale : Nat) : Value
  | list (xs : List Value) : Value
  | dict (entries : List (String × Value)) : Value

/-- A Python dict with string keys, as an ordered association list. -/
abbrev Dict := List (String × Value)

/-- Keys of an association list, in order. -/
def akeys {α : Type} (d : List (String × α)) : List String :=
  d.map Prod.fst

/-- First-match lookup in an association list; `none` models a missing key. -/
def alookup {α : Type} : List (String × α) → String → Option α
  | [], _ => none
  | (k, v) :: tl, q => if k = q then some v else alookup tl q

/-- CPython dict assignment `d[k] = v`: replace the value at the key in place
when the key exists (dict keys are unique, so the first occurrence is the
occurrence), append otherwise. -/
def ainsert {α : Type} : List (String × α) → String → α → List (String × α)
  | [], k, v => [(k, v)]
  | (k', v') :: tl, k, v =>
    if k' = k then (k', v) :: tl else (k', v') :: ainsert tl k v

/-- A Python dict literal built from a list of key-value pairs in order,
later pairs overriding earlier ones. -/
def pydict (pairs : List (String × Value)) : Dict :=
  pairs.foldl (fun d p => ainsert d p.1 p.2) []

/-- The FIELD_MAPPINGS table of utils/doctype_mapping.py: business-friendly
parameter names to DocType field names, in declaration order. -/
def FIELD_MAPPINGS : List (String × String) := [
  ("id", "name"),
  ("title", "title"),
  ("description", "description"),
  ("date", "posting_date"),
  ("due_date", "due_date"),
  ("status", "status"),
  ("customer_name", "customer_name"),
  ("customer_email", "email_id"),
  ("customer_phone", "mobile_no"),
  ("supplier_name", "supplier_name"),
  ("supplier_email", "email_id"),
  ("supplier_phone", "mobile_no"),
  ("invoice_number", "name"),
  ("invoice_date", "posting_date"),
  ("grand_total", "grand_total"),
  ("net_total", "net_total"),
  ("tax_amount", "total_taxes_and_charges"),
  ("item_code", "item_code"),
  ("item_name", "item_name"),
  ("item_group", "item_group"),
  ("unit_price", "standard_rate"),
  ("quantity", "qty"),
  ("amount", "amount"),
  ("project_name", "project_name"),
  ("project_description", "description"),
  ("start_date", "project_start_date"),
  ("end_date", "project_end_date"),
  ("employee_name", "employee_name"),
  ("employee_number", "employee"),
  ("department", "department"),
  ("designation", "designation"),
  ("join_date", "date_of_joining")]

/-- The key translation applied to one business parameter name:
`FIELD_MAPPINGS[k]` when present, the name itself otherwise. -/
def renameKey (k : String) : String :=
  match alookup FIELD_MAPPINGS k with
  | some target => target
  | none => k

/-- map_business_params_to_doctype_fields of utils/doctype_mapping.py:
build the output dict by assigning each value under its translated key in
input order, then assign the doctype key to the DocumentType tag. -/
def map_business_params_to_doctype_fields (params : Dict) (doctype : String) :
    Dict :=
  ainsert (params.foldl (fun mapped p => ainsert mapped (renameKey p.1) p.2) [])
    "doctype" (Value.str doctype)

/-- The BUSINESS_OPERATIONS table of utils/doctype_mapping.py: business
operation names to DocType names (DocTypes is a str-valued enum, so members
are modelled by their string values). -/
def BUSINESS_OPERATIONS : List (String × String) := [
  ("create_sales_invoice", "Sales Invoice"),
  ("create_purchase_invoice", "Purchase Invoice"),
  ("create_payment", "Payment Entry"),
  ("create_journal_entry", "Journal Entry"),
  ("approve_invoice", "Sales Invoice"),
  ("create_cost_center", "Cost Center"),
  ("create_budget", "Budget"),
  ("create_fiscal_year", "Fiscal Year"),
  ("create_sales_order", "Sales Order"),
  ("create_quotation", "Quotation"),
  ("create_customer", "Customer"),
  ("create_delivery_note", "Delivery Note"),
  ("create_purchase_order", "Purchase Order"),
  ("create_supplier_quotation", "Supplier Quotation"),
  ("create_supplier", "Supplier"),
  ("create_purchase_receipt", "Purchase Receipt"),
  ("create_item", "Item"),
  ("create_stock_entry", "Stock Entry"),
  ("create_warehouse", "Warehouse"),
  ("create_item_price", "Item Price"),
  ("create_price_list", "Price List"),
  ("create_batch", "Batch"),
  ("create_serial_no", "Serial No"),
  ("create_employee", "Employee"),
  ("mark_attendance", "Attendance"),
  ("create_leave_application", "Leave Application"),
  ("create_salary_structure", "Salary Structure"),
  ("create_salary_slip", "Salary Slip"),
  ("create_job_applicant", "Job Applicant"),
  ("create_project", "Project"),
  ("create_task", "Task"),
  ("log_time", "Timesheet"),
  ("create_bom", "BOM"),
  ("create_work_order", "Work Order"),
  ("create_production_plan", "Production Plan"),
  ("create_job_card", "Job Card"),
  ("create_quality_inspection", "Quality Inspection"),
  ("create_lead", "Lead"),
  ("create_opportunity", "Opportunity"),
  ("create_campaign", "Campaign"),
  ("create_asset", "Asset"),
  ("create_asset_category", "Asset Category"),
  ("create_asset_maintenance", "Asset Maintenance"),
  ("create_asset_movement", "Asset Movement"),
  ("create_issue", "Issue"),
  ("create_service_level_agreement", "Service Level Agreement"),
  ("create_warranty_claim", "Warranty Claim"),
  ("create_workflow", "Workflow"),
  ("create_print_format", "Print Format"),
  ("create_custom_field", "Custom Field"),
  ("create_notification", "Notification")]

/-- get_doctype_for_operation of utils/doctype_mapping.py: a ValueError for
operations outside BUSINESS_OPERATIONS is modelled as the error branch, the
table value is returned otherwise. -/
def get_doctype_for_operation (operation : String) : Except String String :=
  match alookup BUSINESS_OPERATIONS operation with
  | none => Except.error ("Unsupported operation: " ++ operation)
  | some doctype => Except.ok doctype

/-- The required_fields table local to get_required_fields of
utils/doctype_mapping.py, in declaration order. -/
def required_fields_table : List (String × List String) := [
  ("Customer", ["customer_name", "customer_type"]),
  ("Supplier", ["supplier_name", "supplier_type"]),
  ("Item", ["item_code", "item_name", "item_group"]),
  ("Sales Invoice", ["customer", "posting_date", "items"]),
  ("Purchase Invoice", ["supplier", "posting_date", "items"]),
  ("Sales Order", ["customer", "delivery_date", "items"]),
  ("Purchase Order", ["supplier", "schedule_date", "items"]),
  ("Payment Entry", ["payment_type", "party_type", "party", "paid_amount"]),
  ("Employee", ["employee_name", "date_of_joining"]),
  ("Project", ["project_name"]),
  ("Task", ["subject"])]

/-- get_required_fields of utils/doctype_mapping.py:
`required_fields.get(doctype, [])`. -/
def get_required_fields (doctype : String) : List String :=
  (alookup required_fields_table doctype).getD []

/-- The per-field test of validate_required_fields:
`field not in data or data[field] is None`. -/
def isMissing (data : Dict) (field : String) : Bool :=
  match alookup data field with
  | none => true
  | some Value.null => true
  | some _ => false

/-- validate_required_fields of utils/doctype_mapping.py: walk the required
list in order, collecting the fields whose per-field test fails. -/
def validate_required_fields (data : Dict) (doctype : String) : List String :=
  (get_required_fields doctype).foldl
    (fun missing field => if isMissing data field then missing ++ [field]
      else missing) []

/-- An ERPNextError instance of utils/error_handling.py: a message, an error
code and a details mapping. The subclasses fix the code: ValidationError has
code VALIDATION_ERROR, AuthenticationError has AUTHENTICATION_ERROR,
NotFoundError has NOT_FOUND_ERROR, PermissionError has PERMISSION_ERROR, the
base default is ERPNEXT_ERROR. -/
structure ERPNextErr where
  message : String
  error_code : String
  details : Dict

/-- An exception crossing the tool boundary: either an ERPNextError or any
other Python exception, identified by its message text. -/
inductive Exc where
  | erp (e : ERPNextErr) : Exc
  | other (message : String) : Exc

/-- Boolean substring test on strings, used to model the substring checks
`"authentication" in error_message` of the Python code. -/
def strContains (s pat : String) : Bool :=
  decide (pat.toList <:+: s.toList)

/-- handle_frappe_errors of utils/error_handling.py, as a transformer of call
outcomes: a raised exception (identified by its message text) is converted by
case-insensitive substring inspection into an error of the taxonomy; a normal
return passes through. -/
def handle_frappe_errors {α : Type} (r : Except String α) :
    Except ERPNextErr α :=
  match r with
  | Except.ok a => Except.ok a
  | Except.error msg =>
    let error_message := msg.toLower
    if strContains error_message "authentication" ||
        strContains error_message "login" then
      Except.error ⟨"Authentication failed: " ++ msg, "AUTHENTICATION_ERROR", []⟩
    else if strContains error_message "validation" ||
        strContains error_message "invalid" then
      Except.error ⟨"Validation error: " ++ msg, "VALIDATION_ERROR", []⟩
    else if strContains error_message "not found" ||
        strContains error_message "does not exist" then
      Except.error ⟨"Resource not found: " ++ msg, "NOT_FOUND_ERROR", []⟩
    else if strContains error_message "permission" ||
        strContains error_message "not allowed" then
      Except.error ⟨"Permission denied: " ++ msg, "PERMISSION_ERROR", []⟩
    else
      Except.error ⟨"ERPNext operation failed: " ++ msg, "ERPNEXT_ERROR", []⟩

/-- format_error_response of utils/error_handling.py. -/
def format_error_response (error : ERPNextErr) : Dict :=
  [("success", Value.bool false),
   ("error_code", Value.str error.error_code),
   ("message", Value.str error.message),
   ("details", Value.dict error.details)]

/-- format_success_response of utils/error_handling.py. -/
def format_success_response (data : Value) (message : String) : Dict :=
  [("success", Value.bool true),
   ("message", Value.str message),
   ("data", data)]

/-- handle_operation_error of server.py, as a transformer of operation
outcomes: an ERPNextError is formatted with its own fields, any other
exception is wrapped into a generic ERPNextError (default code ERPNEXT_ERROR,
empty details) first; a normal return passes through. -/
def handle_operation_error (r : Except Exc Dict) : Dict :=
  match r with
  | Except.ok d => d
  | Except.error (Exc.erp e) => format_error_response e
  | Except.error (Exc.other m) =>
      format_error_response ⟨"Operation failed: " ++ m, "ERPNEXT_ERROR", []⟩

/-- AccountingOperations.create_sales_invoice of domains/accounting.py.
The Remote Client is abstracted as the create_document function; the second
component of the result counts how many client calls were made. The
invoice_data dict literal merges the four named arguments and the free-form
kwargs in order. -/
def create_sales_invoice (create_document : String → Dict → Value)
    (customer items posting_date due_date : Value) (kwargs : Dict) :
    Except Exc Dict × Nat :=
  let invoice_data := pydict ([("customer", customer), ("items", items),
    ("posting_date", posting_date), ("due_date", due_date)] ++ kwargs)
  let mapped_data :=
    map_business_params_to_doctype_fields invoice_data "Sales Invoice"
  let missing_fields := validate_required_fields mapped_data "Sales Invoice"
  if missing_fields ≠ [] then
    (Except.error (Exc.erp ⟨"Missing required fields: " ++
        String.intercalate ", " missing_fields, "VALIDATION_ERROR", []⟩), 0)
  else
    (Except.ok (format_success_response
        (create_document "Sales Invoice" mapped_data)
        "Sales invoice created successfully"), 1)

/-- ERPNextClient.execute_report of client/frappe_client.py, for dict-valued
filters (the dict case of the Optional[Dict] parameter, for which
`filters or {}` is the filters dict itself). The Remote Client is abstracted
as the get_api function, whose outcome is a value or a raised exception
message; the second component records the API methods called, in order.
Both raising calls lead to the structured placeholder, never to a raise. -/
def execute_report (get_api : String → Dict → Except String Value)
    (report_name : String) (filters : Dict) : Value × List String :=
  match get_api "frappe.desk.query_report.run"
      [("report_name", Value.str report_name),
       ("filters", Value.dict filters)] with
  | Except.ok result => (result, ["frappe.desk.query_report.run"])
  | Except.error _ =>
    match get_api "frappe.desk.reportview.get_data"
        (pydict (("report_name", Value.str report_name) :: filters)) with
    | Except.ok result =>
        (result, ["frappe.desk.query_report.run",
                  "frappe.desk.reportview.get_data"])
    | Except.error e2 =>
        (Value.dict [("result", Value.list []),
          ("columns", Value.list []),
          ("message", Value.str ("Report execution failed: " ++ e2 ++
            ". This may be due to ERPNext API limitations or missing report configuration.")),
          ("report_name", Value.str report_name),
          ("filters", Value.dict filters),
          ("error", Value.bool true)],
         ["frappe.desk.query_report.run", "frappe.desk.reportview.get_data"])

/- Basic facts about the association-list model of Python dicts. -/

theorem alookup_eq_none_iff {α : Type} (d : List (String × α)) (q : String) :
    alookup d q = none ↔ q ∉ akeys d := by
  induction d with
  | nil => simp [alookup, akeys]
  | cons p tl ih =>
    obtain ⟨k, v⟩ := p
    by_cases h : k = q
    · subst h
      simp [alookup, akeys]
    · simp [alookup, akeys, h, ih]
      tauto

theorem alookup_mem {α : Type} {d : List (String × α)} {k : String} {v : α}
    (h : alookup d k = some v) : (k, v) ∈ d := by
  induction d with
  | nil => simp [alookup] at h
  | cons p tl ih =>
    obtain ⟨k', v'⟩ := p
    by_cases hk : k' = k
    · subst hk
      simp [alookup] at h
      simp [h]
    · simp [alookup, hk] at h
      simp [ih h]

theorem alookup_eq_some_of_mem_nodup {α : Type} {d : List (String × α)}
    (hnd : (akeys d).Nodup) {k : String} {v : α} (h : (k, v) ∈ d) :
    alookup d k = some v := by
  induction d with
  | nil => simp at h
  | cons p tl ih =>
    obtain ⟨k', v'⟩ := p
    have hnd' : k' ∉ akeys tl ∧ (akeys tl).Nodup := by
      rw [show akeys ((k', v') :: tl) = k' :: akeys tl from rfl] at hnd
      exact List.nodup_cons.mp hnd
    rcases List.mem_cons.mp h with h1 | h1
    · rw [Prod.mk.injEq] at h1
      simp [alookup, h1.1, h1.2]
    · have hk : k' ≠ k := by
        intro he
        have hm : k ∈ akeys tl := List.mem_map_of_mem Prod.fst h1
        rw [he] at hnd'
        exact hnd'.1 hm
      simp [alookup, hk]
      exact ih hnd'.2 h1

theorem akeys_ainsert {α : Type} (d : List (String × α)) (k : String) (v : α) :
    akeys (ainsert d k v) =
      if k ∈ akeys d then akeys d else akeys d ++ [k] := by
  induction d with
  | nil => simp [ainsert, akeys]
  | cons p tl ih =>
    obtain ⟨k', v'⟩ := p
    by_cases hk : k' = k
    · subst hk
      simp [ainsert, akeys]
    · have h1 : ainsert ((k', v') :: tl) k v = (k', v') :: ainsert tl k v := by
        simp [ainsert, hk]
      have h2 : akeys ((k', v') :: ainsert tl k v) =
          k' :: akeys (ainsert tl k v) := rfl
      have h3 : akeys ((k', v') :: tl) = k' :: akeys tl := rfl
      rw [h1, h2, h3, ih]
      by_cases hmem : k ∈ akeys tl
      · simp [hmem]
      · simp [hmem, Ne.symm hk]

theorem length_ainsert {α : Type} (d : List (String × α)) (k : String) (v : α) :
    (ainsert d k v).length =
      if k ∈ akeys d then d.length else d.length + 1 := by
  induction d with
  | nil => simp [ainsert, akeys]
  | cons p tl ih =>
    obtain ⟨k', v'⟩ := p
    by_cases hk : k' = k
    · subst hk
      simp [ainsert, akeys]
    · have h1 : ainsert ((k', v') :: tl) k v = (k', v') :: ainsert tl k v := by
        simp [ainsert, hk]
      have h3 : akeys ((k', v') :: tl) = k' :: akeys tl := rfl
      rw [h1, List.length_cons, List.length_cons, h3, ih]
      by_cases hmem : k ∈ akeys tl
      · simp [hmem]
      · simp [hmem, Ne.symm hk]

theorem alookup_ainsert {α : Type} (d : List (String × α)) (k : String) (v : α)
    (q : String) :
    alookup (ainsert d k v) q = if q = k then some v else alookup d q := by
  induction d with
  | nil =>
    by_cases hq : q = k
    · subst hq
      simp [ainsert, alookup]
    · simp [ainsert, alookup, hq, Ne.symm hq]
  | cons p tl ih =>
    obtain ⟨k', v'⟩ := p
    by_cases hk : k' = k
    · subst hk
      by_cases hq : q = k'
      · subst hq
        simp [ainsert, alookup]
      · simp [ainsert, alookup, hq, Ne.symm hq]
    · have h1 : ainsert ((k', v') :: tl) k v = (k', v') :: ainsert tl k v := by
        simp [ainsert, hk]
      rw [h1]
      by_cases hq1 : k' = q
      · subst hq1
        simp [alookup, hk]
      · simp [alookup, hq1, ih]

theorem nodup_akeys_ainsert {α : Type} (d : List (String × α)) (k : String)
    (v : α) (h : (akeys d).Nodup) : (akeys (ainsert d k v)).Nodup := by
  rw [akeys_ainsert]
  by_cases hmem : k ∈ akeys d
  · simpa [hmem] using h
  · simp [hmem, List.nodup_append, h]

/- Facts about the mapper fold of map_business_params_to_doctype_fields. -/

theorem ainsert_of_not_mem {α : Type} (d : List (String × α)) (k : String)
    (v : α) (h : k ∉ akeys d) : ainsert d k v = d ++ [(k, v)] := by
  induction d with
  | nil => simp [ainsert]
  | cons p tl ih =>
    obtain ⟨k', v'⟩ := p
    have hk : k' ≠ k := by
      intro he
      exact h (by simp [akeys, he])
    have htl : k ∉ akeys tl := by
      intro hc
      exact h (by simp [akeys] at hc ⊢; tauto)
    simp [ainsert, hk, ih htl]

theorem ainsert_mem_self_eq {α : Type} (d : List (String × α)) (k : String)
    (v : α) (hnd : (akeys d).Nodup) (h : (k, v) ∈ d) : ainsert d k v = d := by
  induction d with
  | nil => simp at h
  | cons p tl ih =>
    obtain ⟨k', v'⟩ := p
    have hnd' : k' ∉ akeys tl ∧ (akeys tl).Nodup := by
      rw [show akeys ((k', v') :: tl) = k' :: akeys tl from rfl] at hnd
      exact List.nodup_cons.mp hnd
    by_cases hk : k' = k
    · subst hk
      rcases List.mem_cons.mp h with h1 | h1
      · rw [Prod.mk.injEq] at h1
        simp [ainsert, h1.2]
      · exact absurd (List.mem_map_of_mem Prod.fst h1) hnd'.1
    · have h1 : (k, v) ∈ tl := by
        rcases List.mem_cons.mp h with h2 | h2
        · rw [Prod.mk.injEq] at h2
          exact absurd h2.1.symm hk
        · exact h2
      simp [ainsert, hk, ih hnd'.2 h1]

theorem mem_akeys_ainsert_self {α : Type} (d : List (String × α)) (k : String)
    (v : α) : k ∈ akeys (ainsert d k v) := by
  rw [akeys_ainsert]
  by_cases h : k ∈ akeys d <;> simp [h]

theorem mem_akeys_ainsert_of_mem {α : Type} (d : List (String × α))
    (k q : String) (v : α) (h : q ∈ akeys d) : q ∈ akeys (ainsert d k v) := by
  rw [akeys_ainsert]
  by_cases hk : k ∈ akeys d <;> simp [hk, h]

theorem alookup_foldl_rename (r : Dict) (acc : Dict) (q : String) :
    alookup (r.foldl (fun mapped p => ainsert mapped (renameKey p.1) p.2) acc)
        q =
      ((r.reverse.find? (fun p => renameKey p.1 == q)).map Prod.snd).or
        (alookup acc q) := by
  induction r generalizing acc with
  | nil => simp
  | cons p r ih =>
    rw [List.foldl_cons, ih, List.reverse_cons, List.find?_append]
    cases hfind : r.reverse.find? (fun p => renameKey p.1 == q) with
    | some u => simp [hfind]
    | none =>
      rw [alookup_ainsert]
      by_cases hp : renameKey p.1 = q
      · simp [List.find?, hp]
      · have hp' : ¬ q = renameKey p.1 := fun he => hp he.symm
        have hb : (renameKey p.1 == q) = false := by
          simp [hp]
        simp [List.find?, hb, hp']

theorem alookup_mapper (r : Dict) (t q : String) (hq : q ≠ "doctype") :
    alookup (map_business_params_to_doctype_fields r t) q =
      (r.reverse.find? (fun p => renameKey p.1 == q)).map Prod.snd := by
  unfold map_business_params_to_doctype_fields
  rw [alookup_ainsert, if_neg hq, alookup_foldl_rename]
  simp [alookup]

theorem alookup_mapper_doctype (r : Dict) (t : String) :
    alookup (map_business_params_to_doctype_fields r t) "doctype" =
      some (Value.str t) := by
  unfold map_business_params_to_doctype_fields
  rw [alookup_ainsert, if_pos rfl]

theorem mem_akeys_foldl_rename (r acc : Dict) (q : String)
    (hq : q ∈ akeys
      (r.foldl (fun mapped p => ainsert mapped (renameKey p.1) p.2) acc)) :
    q ∈ akeys acc ∨ ∃ k, q = renameKey k := by
  induction r generalizing acc with
  | nil => exact Or.inl hq
  | cons p r ih =>
    rw [List.foldl_cons] at hq
    rcases ih _ hq with h1 | h1
    · rw [akeys_ainsert] at h1
      by_cases hmem : renameKey p.1 ∈ akeys acc
      · rw [if_pos hmem] at h1
        exact Or.inl h1
      · rw [if_neg hmem] at h1
        rcases List.mem_append.mp h1 with h2 | h2
        · exact Or.inl h2
        · exact Or.inr ⟨p.1, by simpa using h2⟩
    · exact Or.inr h1

theorem nodup_akeys_foldl_rename (r acc : Dict)
    (h : (akeys acc).Nodup) :
    (akeys
      (r.foldl (fun mapped p => ainsert mapped (renameKey p.1) p.2) acc)).Nodup
    := by
  induction r generalizing acc with
  | nil => exact h
  | cons p r ih => exact ih _ (nodup_akeys_ainsert _ _ _ h)

theorem foldl_rename_fixed (r acc : Dict)
    (hfix : ∀ p ∈ r, renameKey p.1 = p.1)
    (hnd : (akeys r).Nodup)
    (hdis : ∀ k ∈ akeys r, k ∉ akeys acc) :
    r.foldl (fun mapped p => ainsert mapped (renameKey p.1) p.2) acc =
      acc ++ r := by
  induction r generalizing acc with
  | nil => simp
  | cons p r ih =>
    obtain ⟨k, v⟩ := p
    have hnd' : k ∉ akeys r ∧ (akeys r).Nodup := by
      rw [show akeys ((k, v) :: r) = k :: akeys r from rfl] at hnd
      exact List.nodup_cons.mp hnd
    have hk : renameKey k = k := hfix (k, v) (List.mem_cons_self _ _)
    have hstep : ainsert acc (renameKey k) v = acc ++ [(k, v)] := by
      rw [hk]
      exact ainsert_of_not_mem _ _ _
        (hdis k (by simp [akeys]))
    have hdis' : ∀ k' ∈ akeys r, k' ∉ akeys (acc ++ [(k, v)]) := by
      intro k' hk' hmem
      have hsplit : akeys (acc ++ [(k, v)]) = akeys acc ++ [k] := by
        simp [akeys]
      rw [hsplit] at hmem
      rcases List.mem_append.mp hmem with h2 | h2
      · refine hdis k' ?_ h2
        rw [show akeys ((k, v) :: r) = k :: akeys r from rfl]
        exact List.mem_cons_of_mem _ hk'
      · have he : k' = k := by simpa using h2
        subst he
        exact hnd'.1 hk'
    rw [List.foldl_cons]
    simp only [hstep]
    rw [ih (acc ++ [(k, v)]) (fun p hp => hfix p (List.mem_cons_of_mem _ hp))
      hnd'.2 hdis']
    simp

/- Facts about the shipped FIELD_MAPPINGS table and key renaming. -/

theorem field_mappings_targets_fixed :
    ∀ p ∈ FIELD_MAPPINGS, renameKey p.2 = p.2 := by decide

theorem field_mappings_no_doctype_target :
    ∀ p ∈ FIELD_MAPPINGS, p.2 ≠ "doctype" := by decide

theorem renameKey_doctype : renameKey "doctype" = "doctype" := by decide

theorem renameKey_idem (k : String) :
    renameKey (renameKey k) = renameKey k := by
  cases h : alookup FIELD_MAPPINGS k with
  | none =>
    have h1 : renameKey k = k := by
      unfold renameKey
      rw [h]
    rw [h1]
    exact h1
  | some tgt =>
    have h1 : renameKey k = tgt := by
      unfold renameKey
      rw [h]
    rw [h1]
    exact field_mappings_targets_fixed (k, tgt) (alookup_mem h)

theorem renameKey_eq_doctype {k : String} (h : renameKey k = "doctype") :
    k = "doctype" := by
  cases h1 : alookup FIELD_MAPPINGS k with
  | none =>
    have h2 : renameKey k = k := by
      unfold renameKey
      rw [h1]
    rw [h2] at h
    exact h
  | some tgt =>
    have h2 : renameKey k = tgt := by
      unfold renameKey
      rw [h1]
    rw [h2] at h
    exact absurd h (field_mappings_no_doctype_target (k, tgt) (alookup_mem h1))

theorem mapper_keys_fixed (r : Dict) (t : String) :
    ∀ p ∈ map_business_params_to_doctype_fields r t, renameKey p.1 = p.1 := by
  intro p hp
  have hk : p.1 ∈ akeys (map_business_params_to_doctype_fields r t) :=
    List.mem_map_of_mem Prod.fst hp
  unfold map_business_params_to_doctype_fields at hk
  rw [akeys_ainsert] at hk
  have hdisj : p.1 ∈ akeys
      (r.foldl (fun mapped p => ainsert mapped (renameKey p.1) p.2) []) ∨
      p.1 = "doctype" := by
    by_cases hd : "doctype" ∈ akeys
        (r.foldl (fun mapped p => ainsert mapped (renameKey p.1) p.2) [])
    · rw [if_pos hd] at hk
      exact Or.inl hk
    · rw [if_neg hd] at hk
      rcases List.mem_append.mp hk with h1 | h1
      · exact Or.inl h1
      · exact Or.inr (by simpa using h1)
  rcases hdisj with h | h
  · rcases mem_akeys_foldl_rename r [] p.1 h with h1 | h1
    · simp [akeys] at h1
    · obtain ⟨k, he⟩ := h1
      rw [he]
      exact renameKey_idem k
  · rw [h]
    exact renameKey_doctype

theorem nodup_akeys_mapper (r : Dict) (t : String) :
    (akeys (map_business_params_to_doctype_fields r t)).Nodup := by
  unfold map_business_params_to_doctype_fields
  exact nodup_akeys_ainsert _ _ _
    (nodup_akeys_foldl_rename r [] (by simp [akeys]))

theorem mapper_fixed_point (d : Dict) (t : String)
    (hfix : ∀ p ∈ d, renameKey p.1 = p.1)
    (hnd : (akeys d).Nodup)
    (hdt : ("doctype", Value.str t) ∈ d) :
    map_business_params_to_doctype_fields d t = d := by
  unfold map_business_params_to_doctype_fields
  rw [foldl_rename_fixed d [] hfix hnd (by simp [akeys])]
  simp only [List.nil_append]
  exact ainsert_mem_self_eq d _ _ hnd hdt

/- Length accounting for the mapper fold. -/

theorem length_ainsert_le {α : Type} (d : List (String × α)) (k : String)
    (v : α) : (ainsert d k v).length ≤ d.length + 1 := by
  rw [length_ainsert]
  by_cases h : k ∈ akeys d <;> simp [h]

theorem length_ainsert_of_mem {α : Type} (d : List (String × α)) (k : String)
    (v : α) (h : k ∈ akeys d) : (ainsert d k v).length = d.length := by
  rw [length_ainsert, if_pos h]

theorem length_foldl_rename_le (r acc : Dict) :
    (r.foldl (fun mapped p => ainsert mapped (renameKey p.1) p.2) acc).length ≤
      acc.length + r.length := by
  induction r generalizing acc with
  | nil => simp
  | cons p r ih =>
    rw [List.foldl_cons]
    calc (r.foldl (fun mapped p => ainsert mapped (renameKey p.1) p.2)
          (ainsert acc (renameKey p.1) p.2)).length ≤
        (ainsert acc (renameKey p.1) p.2).length + r.length := ih _
      _ ≤ acc.length + 1 + r.length := by
          have := length_ainsert_le acc (renameKey p.1) p.2
          omega
      _ = acc.length + (p :: r).length := by
          simp
          omega

theorem mem_akeys_foldl_mono (r acc : Dict) (q : String) (h : q ∈ akeys acc) :
    q ∈ akeys (r.foldl (fun mapped p => ainsert mapped (renameKey p.1) p.2)
      acc) := by
  induction r generalizing acc with
  | nil => exact h
  | cons p r ih =>
    rw [List.foldl_cons]
    exact ih _ (mem_akeys_ainsert_of_mem _ _ _ _ h)

/- The validator as a filter over the required-field list. -/

theorem foldl_collect_eq_filter (p : String → Bool) (l acc : List String) :
    l.foldl (fun missing field => if p field then missing ++ [field]
      else missing) acc = acc ++ l.filter p := by
  induction l generalizing acc with
  | nil => simp
  | cons f l ih =>
    by_cases hf : p f <;> simp [List.foldl_cons, hf, List.filter_cons, ih]

theorem validate_eq_filter (data : Dict) (doctype : String) :
    validate_required_fields data doctype =
      (get_required_fields doctype).filter (isMissing data) := by
  unfold validate_required_fields
  simpa using
    foldl_collect_eq_filter (isMissing data) (get_required_fields doctype) []

theorem isMissing_iff (data : Dict) (field : String) :
    isMissing data field = true ↔
      alookup data field = none ∨ alookup data field = some Value.null := by
  unfold isMissing
  cases h : alookup data field with
  | none => simp
  | some v => cases v <;> simp

theorem business_operations_keys_nodup :
    (akeys BUSINESS_OPERATIONS).Nodup := by decide

/-- C7: the mapper is idempotent with the shipped FIELD_MAPPINGS table: for
every record r and DocumentType t, applying
map_business_params_to_doctype_fields to its own output with the same t
yields an identical record (every target value in FIELD_MAPPINGS is either
equal to its source key or is not itself a key of FIELD_MAPPINGS, so a second
application renames nothing and re-injects the same doctype). -/
theorem C7_mapper_idempotent (r : Dict) (t : String) :
    map_business_params_to_doctype_fields
        (map_business_params_to_doctype_fields r t) t =
      map_business_params_to_doctype_fields r t :=
  mapper_fixed_point _ t (mapper_keys_fixed r t) (nodup_akeys_mapper r t)
    (alookup_mem (alookup_mapper_doctype r t))

/-- C2: validate_required_fields returns exactly the required field names of
the DocumentType (looked up in the fixed table inside get_required_fields)
that are absent or bound to the None sentinel, in declared order; unknown
DocumentTypes give the empty list on any input; an empty record gives the
full required-field list; and the Customer scenario yields
the customer_type field. -/
theorem C2_validator (data : Dict) (doctype : String) :
    validate_required_fields data doctype =
        (get_required_fields doctype).filter (isMissing data) ∧
      (doctype ∉ akeys required_fields_table →
        validate_required_fields data doctype = []) ∧
      validate_required_fields [] doctype = get_required_fields doctype ∧
      validate_required_fields [("customer_name", Value.str "Test Customer")]
          "Customer" = ["customer_type"] := by
  refine ⟨validate_eq_filter data doctype, ?_, ?_, ?_⟩
  · intro hni
    rw [validate_eq_filter]
    have h : get_required_fields doctype = [] := by
      unfold get_required_fields
      rw [(alookup_eq_none_iff _ _).mpr hni]
      rfl
    rw [h]
    rfl
  · rw [validate_eq_filter]
    refine List.filter_eq_self.mpr ?_
    intro f _
    rfl
  · rfl

/-- C2 witness: a DocumentType outside the required-field table validates to
the empty missing list. -/
theorem C2_validator_witness :
    validate_required_fields [("x", Value.null)] "Nonexistent" = [] :=
  (C2_validator [("x", Value.null)] "Nonexistent").2.1 (by decide)

/-- C8: a required field is reported missing if and only if it is not a key
of the record or its value is exactly None; any other value, including the
empty string, the empty list, zero or false, counts as present. -/
theorem C8_missing_iff (data : Dict) (doctype : String) (field : String) :
    field ∈ validate_required_fields data doctype ↔
      field ∈ get_required_fields doctype ∧
        (alookup data field = none ∨
          alookup data field = some Value.null) := by
  rw [validate_eq_filter, List.mem_filter, isMissing_iff]

/-- C10: get_doctype_for_operation fails (the ValueError branch) exactly for
operation names outside the BUSINESS_OPERATIONS table, and otherwise returns
exactly the DocType which the table associates with the operation. -/
theorem C10_get_doctype (operation : String) :
    ((∃ msg, get_doctype_for_operation operation = Except.error msg) ↔
        operation ∉ akeys BUSINESS_OPERATIONS) ∧
      ∀ d, (operation, d) ∈ BUSINESS_OPERATIONS →
        get_doctype_for_operation operation = Except.ok d := by
  constructor
  · constructor
    · rintro ⟨msg, hmsg⟩ hmem
      cases h : alookup BUSINESS_OPERATIONS operation with
      | none => exact (alookup_eq_none_iff _ _).mp h hmem
      | some d =>
        unfold get_doctype_for_operation at hmsg
        rw [h] at hmsg
        exact Except.noConfusion hmsg
    · intro hnmem
      have h : alookup BUSINESS_OPERATIONS operation = none :=
        (alookup_eq_none_iff _ _).mpr hnmem
      refine ⟨"Unsupported operation: " ++ operation, ?_⟩
      unfold get_doctype_for_operation
      rw [h]
  · intro d hmem
    have h := alookup_eq_some_of_mem_nodup business_operations_keys_nodup hmem
    unfold get_doctype_for_operation
    rw [h]

/-- C10 witness: the create_sales_invoice operation resolves to the Sales
Invoice DocType. -/
theorem C10_get_doctype_witness :
    get_doctype_for_operation "create_sales_invoice" =
      Except.ok "Sales Invoice" :=
  (C10_get_doctype "create_sales_invoice").2 "Sales Invoice" (by decide)

/-- The property claim C1 asserts of the mapper, for a record (a mapping, so
key list without duplicates) and a DocumentType tag: every key with a
FIELD_MAPPINGS entry appears in the output under its target name with its
value unchanged, every key without an entry other than doctype is kept
verbatim with its value unchanged, and the output binds doctype to the
DocumentType tag (overwriting any caller-supplied doctype entry). -/
def mapperRenamesPointwise (r : Dict) (t : String) : Prop :=
  (∀ k v tgt, (k, v) ∈ r → alookup FIELD_MAPPINGS k = some tgt →
    alookup (map_business_params_to_doctype_fields r t) tgt = some v) ∧
  (∀ k v, (k, v) ∈ r → alookup FIELD_MAPPINGS k = none → k ≠ "doctype" →
    alookup (map_business_params_to_doctype_fields r t) k = some v) ∧
  alookup (map_business_params_to_doctype_fields r t) "doctype" =
    some (Value.str t)

/-- C1 counterexample: the claim fails for the record with keys id and
invoice_number, two distinct keys that FIELD_MAPPINGS sends to the shared
target name: the value of id is no longer found under name in the output,
so the pointwise renaming property does not hold for every record. -/
theorem C1_counterexample :
    ¬ ∀ (r : Dict) (t : String), (akeys r).Nodup →
      mapperRenamesPointwise r t := by
  intro h
  have h1 := (h [("id", Value.str "A"), ("invoice_number", Value.str "B")]
      "Sales Invoice" (by decide)).1 "id" (Value.str "A") "name"
      (by simp) rfl
  rw [show alookup (map_business_params_to_doctype_fields
      [("id", Value.str "A"), ("invoice_number", Value.str "B")]
      "Sales Invoice") "name" = some (Value.str "B") from rfl] at h1
  injection h1 with h2
  injection h2 with h3
  exact absurd h3 (by decide)

theorem find?_rename_unique (l : Dict) (q k : String) (v : Value)
    (hnd : (akeys l).Nodup) (hmem : (k, v) ∈ l) (hq : renameKey k = q)
    (hkey : ∀ p ∈ l, renameKey p.1 = q → p.1 = k) :
    l.find? (fun p => renameKey p.1 == q) = some (k, v) := by
  induction l with
  | nil => simp at hmem
  | cons p tl ih =>
    obtain ⟨k', v'⟩ := p
    have hnd' : k' ∉ akeys tl ∧ (akeys tl).Nodup := by
      rw [show akeys ((k', v') :: tl) = k' :: akeys tl from rfl] at hnd
      exact List.nodup_cons.mp hnd
    by_cases hp : renameKey k' = q
    · have hk' : k' = k := hkey (k', v') (List.mem_cons_self _ _) hp
      subst hk'
      rcases List.mem_cons.mp hmem with h1 | h1
      · rw [Prod.mk.injEq] at h1
        rw [List.find?_cons_of_pos _ (by simp [hp]), h1.2]
      · exact absurd (List.mem_map_of_mem Prod.fst h1) hnd'.1
    · have hk' : k' ≠ k := by
        intro he
        rw [he] at hp
        exact hp hq
      have h1 : (k, v) ∈ tl := by
        rcases List.mem_cons.mp hmem with h2 | h2
        · rw [Prod.mk.injEq] at h2
          exact absurd h2.1.symm hk'
        · exact h2
      rw [List.find?_cons_of_neg _ (by simp [hp])]
      exact ih hnd'.2 h1 (fun p hp2 => hkey p (List.mem_cons_of_mem _ hp2))

/-- C1 as amended: for a record in which no two distinct keys are renamed to
the same target (keys without a FIELD_MAPPINGS entry renaming to themselves),
the mapper renames every mapped key to its table target with its value
unchanged, keeps every unmapped key other than doctype verbatim with its
value unchanged, binds doctype to the DocumentType tag, and the Sales Invoice
scenario of the claim evaluates exactly as stated. -/
theorem C1_mapper_amended (r : Dict) (t : String)
    (hnd : (akeys r).Nodup)
    (hinj : ∀ k₁ ∈ akeys r, ∀ k₂ ∈ akeys r,
      renameKey k₁ = renameKey k₂ → k₁ = k₂) :
    mapperRenamesPointwise r t ∧
      map_business_params_to_doctype_fields
          [("customer_name", Value.str "ABC Corp"),
           ("invoice_date", Value.str "2025-01-15"),
           ("grand_total", Value.decimal 10000 1)] "Sales Invoice" =
        [("customer_name", Value.str "ABC Corp"),
         ("posting_date", Value.str "2025-01-15"),
         ("grand_total", Value.decimal 10000 1),
         ("doctype", Value.str "Sales Invoice")] := by
  have hcore : ∀ k v, (k, v) ∈ r → renameKey k ≠ "doctype" →
      alookup (map_business_params_to_doctype_fields r t) (renameKey k) =
        some v := by
    intro k v hmem hk
    rw [alookup_mapper r t _ hk]
    rw [find?_rename_unique r.reverse (renameKey k) k v
      (by rw [show akeys r.reverse = (akeys r).reverse from
          List.map_reverse _ _]
          exact (List.nodup_reverse).mpr hnd)
      (List.mem_reverse.mpr hmem) rfl
      (fun p hp hpq => hinj p.1
        (List.mem_map_of_mem Prod.fst (List.mem_reverse.mp hp)) k
        (List.mem_map_of_mem Prod.fst hmem) hpq)]
    rfl
  refine ⟨⟨?_, ?_, alookup_mapper_doctype r t⟩, rfl⟩
  · intro k v tgt hmem hlook
    have htgt : renameKey k = tgt := by
      unfold renameKey
      rw [hlook]
    have hdt : renameKey k ≠ "doctype" := by
      rw [htgt]
      exact field_mappings_no_doctype_target (k, tgt) (alookup_mem hlook)
    rw [← htgt]
    exact hcore k v hmem hdt
  · intro k v hmem hlook hkdt
    have hself : renameKey k = k := by
      unfold renameKey
      rw [hlook]
    have hdt : renameKey k ≠ "doctype" := by
      rw [hself]
      exact hkdt
    rw [show k = renameKey k from hself.symm]
    exact hcore k v hmem hdt

/-- C1 witness: the amended theorem applied to the Sales Invoice scenario
record of the claim, whose keys are renamed injectively. -/
theorem C1_mapper_amended_witness :
    alookup (map_business_params_to_doctype_fields
        [("customer_name", Value.str "ABC Corp"),
         ("invoice_date", Value.str "2025-01-15"),
         ("grand_total", Value.decimal 10000 1)] "Sales Invoice")
      "doctype" = some (Value.str "Sales Invoice") :=
  (C1_mapper_amended
    [("customer_name", Value.str "ABC Corp"),
     ("invoice_date", Value.str "2025-01-15"),
     ("grand_total", Value.decimal 10000 1)] "Sales Invoice"
    (by decide) (by decide)).1.2.2

/-- C9: when a record contains two distinct keys whose FIELD_MAPPINGS targets
coincide (k₂ occurring after k₁, and no later key sharing that target), the
output binds the shared target key to the value of the later key, and the
output has fewer entries than the number of input keys plus the injected
doctype key. The result is a function of the input list (and hence of the
mapping together with its key order). -/
theorem C9_collision_last_write_wins
    (r₁ r₂ r₃ : Dict) (k₁ k₂ : String) (v₁ v₂ : Value) (t : String)
    (hne : k₁ ≠ k₂) (hcol : renameKey k₁ = renameKey k₂)
    (hlast : ∀ p ∈ r₃, renameKey p.1 ≠ renameKey k₂) :
    alookup (map_business_params_to_doctype_fields
        (r₁ ++ (k₁, v₁) :: r₂ ++ (k₂, v₂) :: r₃) t) (renameKey k₂) =
      some v₂ ∧
    (map_business_params_to_doctype_fields
        (r₁ ++ (k₁, v₁) :: r₂ ++ (k₂, v₂) :: r₃) t).length <
      (r₁ ++ (k₁, v₁) :: r₂ ++ (k₂, v₂) :: r₃).length + 1 := by
  have hq : renameKey k₂ ≠ "doctype" := by
    intro hdt
    have h2 : k₂ = "doctype" := renameKey_eq_doctype hdt
    have h1 : k₁ = "doctype" := renameKey_eq_doctype (hcol.trans hdt)
    exact hne (h1.trans h2.symm)
  constructor
  · rw [alookup_mapper _ t _ hq]
    have hrev : (r₁ ++ (k₁, v₁) :: r₂ ++ (k₂, v₂) :: r₃).reverse =
        r₃.reverse ++ (k₂, v₂) ::
          (r₂.reverse ++ (k₁, v₁) :: r₁.reverse) := by
      simp
    rw [hrev, List.find?_append]
    have h3 : r₃.reverse.find?
        (fun p => renameKey p.1 == renameKey k₂) = none := by
      refine List.find?_eq_none.mpr ?_
      intro p hp
      simp only [beq_iff_eq]
      exact hlast p (List.mem_reverse.mp hp)
    rw [h3, List.find?_cons_of_pos _ (by simp)]
    rfl
  · unfold map_business_params_to_doctype_fields
    have e1 : (r₁ ++ (k₁, v₁) :: r₂ ++ (k₂, v₂) :: r₃).foldl
        (fun mapped p => ainsert mapped (renameKey p.1) p.2) [] =
      r₃.foldl (fun mapped p => ainsert mapped (renameKey p.1) p.2)
        (ainsert
          (r₂.foldl (fun mapped p => ainsert mapped (renameKey p.1) p.2)
            (ainsert
              (r₁.foldl (fun mapped p => ainsert mapped (renameKey p.1) p.2)
                []) (renameKey k₁) v₁))
          (renameKey k₂) v₂) := by
      simp [List.foldl_append]
    rw [e1]
    have h1 := length_foldl_rename_le r₁ ([] : Dict)
    have h2 := length_ainsert_le
      (r₁.foldl (fun mapped p => ainsert mapped (renameKey p.1) p.2) [])
      (renameKey k₁) v₁
    have h3 := length_foldl_rename_le r₂
      (ainsert (r₁.foldl (fun mapped p => ainsert mapped (renameKey p.1) p.2)
        []) (renameKey k₁) v₁)
    have hmem : renameKey k₂ ∈ akeys
        (r₂.foldl (fun mapped p => ainsert mapped (renameKey p.1) p.2)
          (ainsert (r₁.foldl
            (fun mapped p => ainsert mapped (renameKey p.1) p.2) [])
            (renameKey k₁) v₁)) := by
      refine mem_akeys_foldl_mono _ _ _ ?_
      rw [← hcol]
      exact mem_akeys_ainsert_self _ _ _
    have h4 := length_ainsert_of_mem
      (r₂.foldl (fun mapped p => ainsert mapped (renameKey p.1) p.2)
        (ainsert (r₁.foldl
          (fun mapped p => ainsert mapped (renameKey p.1) p.2) [])
          (renameKey k₁) v₁)) (renameKey k₂) v₂ hmem
    have h5 := length_foldl_rename_le r₃
      (ainsert (r₂.foldl (fun mapped p => ainsert mapped (renameKey p.1) p.2)
        (ainsert (r₁.foldl
          (fun mapped p => ainsert mapped (renameKey p.1) p.2) [])
          (renameKey k₁) v₁)) (renameKey k₂) v₂)
    have h6 := length_ainsert_le
      (r₃.foldl (fun mapped p => ainsert mapped (renameKey p.1) p.2)
        (ainsert (r₂.foldl
          (fun mapped p => ainsert mapped (renameKey p.1) p.2)
          (ainsert (r₁.foldl
            (fun mapped p => ainsert mapped (renameKey p.1) p.2) [])
            (renameKey k₁) v₁)) (renameKey k₂) v₂))
      "doctype" (Value.str t)
    have htot : (r₁ ++ (k₁, v₁) :: r₂ ++ (k₂, v₂) :: r₃).length =
        r₁.length + (r₂.length + 1) + (r₃.length + 1) := by
      simp
      omega
    simp only [List.length_nil] at h1
    omega

/-- C9 witness: a record holding both id and invoice_number, which share the
target name; the output binds name to the later value and has two entries
where the claim bound allows at most two. -/
theorem C9_collision_witness :
    alookup (map_business_params_to_doctype_fields
        [("id", Value.str "A"), ("invoice_number", Value.str "B")]
        "Sales Invoice") (renameKey "invoice_number") =
      some (Value.str "B") ∧
    (map_business_params_to_doctype_fields
        [("id", Value.str "A"), ("invoice_number", Value.str "B")]
        "Sales Invoice").length <
      ([("id", Value.str "A"),
        ("invoice_number", Value.str "B")] : Dict).length + 1 :=
  C9_collision_last_write_wins [] [] [] "id" "invoice_number"
    (Value.str "A") (Value.str "B") "Sales Invoice"
    (by decide) (by decide) (by intro p hp; simp at hp)

theorem strContains_append_right (pfx msg : String) :
    strContains (pfx ++ msg) msg = true := by
  unfold strContains
  rw [decide_eq_true_iff]
  refine ⟨pfx.toList, [], ?_⟩
  simp [String.toList]

/-- C4: every exception raised inside a client method wrapped by
handle_frappe_errors is re-raised as the taxonomy error selected by
case-insensitive substring inspection of its message, the five checks tried
in the order authentication/login, validation/invalid, not found/does not
exist, permission/not allowed, generic; and the original message text is
contained in the converted error's message. -/
theorem C4_frappe_error_taxonomy (msg : String) :
    ∃ e : ERPNextErr,
      @handle_frappe_errors Dict (Except.error msg) = Except.error e ∧
        strContains e.message msg = true ∧
        e.error_code =
          (if strContains msg.toLower "authentication" ||
              strContains msg.toLower "login" then "AUTHENTICATION_ERROR"
           else if strContains msg.toLower "validation" ||
              strContains msg.toLower "invalid" then "VALIDATION_ERROR"
           else if strContains msg.toLower "not found" ||
              strContains msg.toLower "does not exist" then "NOT_FOUND_ERROR"
           else if strContains msg.toLower "permission" ||
              strContains msg.toLower "not allowed" then "PERMISSION_ERROR"
           else "ERPNEXT_ERROR") := by
  have hred : @handle_frappe_errors Dict (Except.error msg) =
      (if strContains msg.toLower "authentication" ||
          strContains msg.toLower "login" then
        Except.error ⟨"Authentication failed: " ++ msg,
          "AUTHENTICATION_ERROR", []⟩
       else if strContains msg.toLower "validation" ||
          strContains msg.toLower "invalid" then
        Except.error ⟨"Validation error: " ++ msg, "VALIDATION_ERROR", []⟩
       else if strContains msg.toLower "not found" ||
          strContains msg.toLower "does not exist" then
        Except.error ⟨"Resource not found: " ++ msg, "NOT_FOUND_ERROR", []⟩
       else if strContains msg.toLower "permission" ||
          strContains msg.toLower "not allowed" then
        Except.error ⟨"Permission denied: " ++ msg, "PERMISSION_ERROR", []⟩
       else
        Except.error ⟨"ERPNext operation failed: " ++ msg,
          "ERPNEXT_ERROR", []⟩) := rfl
  rw [hred]
  split_ifs with h1 h2 h3 h4
  · exact ⟨_, rfl, strContains_append_right "Authentication failed: " msg,
      rfl⟩
  · exact ⟨_, rfl, strContains_append_right "Validation error: " msg, rfl⟩
  · exact ⟨_, rfl, strContains_append_right "Resource not found: " msg, rfl⟩
  · exact ⟨_, rfl, strContains_append_right "Permission denied: " msg, rfl⟩
  · exact ⟨_, rfl,
      strContains_append_right "ERPNext operation failed: " msg, rfl⟩

/-- C5: handle_operation_error returns (never re-raises) a failure envelope
for every exception: success false with error_code, message and details
entries; an ERPNextError contributes its own error_code, message and
details, and any other exception is wrapped with error_code ERPNEXT_ERROR
and a message containing the original exception text. -/
theorem C5_operation_error_envelope :
    (∀ exc : Exc, ∃ c m dts,
        handle_operation_error (Except.error exc) =
          [("success", Value.bool false), ("error_code", Value.str c),
           ("message", Value.str m), ("details", Value.dict dts)]) ∧
      (∀ e : ERPNextErr,
        handle_operation_error (Except.error (Exc.erp e)) =
          [("success", Value.bool false),
           ("error_code", Value.str e.error_code),
           ("message", Value.str e.message),
           ("details", Value.dict e.details)]) ∧
      ∀ m : String,
        handle_operation_error (Except.error (Exc.other m)) =
            [("success", Value.bool false),
             ("error_code", Value.str "ERPNEXT_ERROR"),
             ("message", Value.str ("Operation failed: " ++ m)),
             ("details", Value.dict [])] ∧
          strContains ("Operation failed: " ++ m) m = true := by
  refine ⟨?_, fun e => rfl, fun m => ⟨rfl, strContains_append_right _ _⟩⟩
  intro exc
  cases exc with
  | erp e => exact ⟨e.error_code, e.message, e.details, rfl⟩
  | other m => exact ⟨"ERPNEXT_ERROR", "Operation failed: " ++ m, [], rfl⟩

/-- C3: when the mapped record of create_sales_invoice has a non-empty
missing-required-fields list, the operation makes zero Remote Client calls
and raises a ValidationError whose message names all missing fields, and the
tool boundary turns this into an envelope with error_code VALIDATION_ERROR.
-/
theorem C3_validation_fails_fast (create_document : String → Dict → Value)
    (customer items posting_date due_date : Value) (kwargs : Dict)
    (hmiss : validate_required_fields
        (map_business_params_to_doctype_fields
          (pydict ([("customer", customer), ("items", items),
            ("posting_date", posting_date), ("due_date", due_date)] ++
            kwargs)) "Sales Invoice") "Sales Invoice" ≠ []) :
    (create_sales_invoice create_document customer items posting_date
        due_date kwargs).2 = 0 ∧
      (create_sales_invoice create_document customer items posting_date
          due_date kwargs).1 =
        Except.error (Exc.erp ⟨"Missing required fields: " ++
          String.intercalate ", " (validate_required_fields
            (map_business_params_to_doctype_fields
              (pydict ([("customer", customer), ("items", items),
                ("posting_date", posting_date), ("due_date", due_date)] ++
                kwargs)) "Sales Invoice") "Sales Invoice"),
          "VALIDATION_ERROR", []⟩) ∧
      alookup (handle_operation_error
          (create_sales_invoice create_document customer items posting_date
            due_date kwargs).1) "error_code" =
        some (Value.str "VALIDATION_ERROR") := by
  have heq : create_sales_invoice create_document customer items posting_date
      due_date kwargs =
    (Except.error (Exc.erp ⟨"Missing required fields: " ++
      String.intercalate ", " (validate_required_fields
        (map_business_params_to_doctype_fields
          (pydict ([("customer", customer), ("items", items),
            ("posting_date", posting_date), ("due_date", due_date)] ++
            kwargs)) "Sales Invoice") "Sales Invoice"),
      "VALIDATION_ERROR", []⟩), 0) := by
    unfold create_sales_invoice
    rw [if_pos hmiss]
  refine ⟨by rw [heq], by rw [heq], by rw [heq]; rfl⟩

/-- C3 witness: a call with a None posting date fails validation with zero
client calls. -/
theorem C3_validation_fails_fast_witness :
    (create_sales_invoice (fun _ _ => Value.null) (Value.str "ACME")
        (Value.list []) Value.null Value.null []).2 = 0 :=
  (C3_validation_fails_fast (fun _ _ => Value.null) (Value.str "ACME")
    (Value.list []) Value.null Value.null [] (by decide)).1

/-- C6: when the Remote Client raises on both the primary report call and
the fallback call, execute_report does not raise but returns the structured
placeholder (error true, empty result and columns, the requested report
name, the filters and a message), and the call trace shows the fallback
attempted strictly after the primary. -/
theorem C6_report_fallback (get_api : String → Dict → Except String Value)
    (report_name : String) (filters : Dict) (e1 e2 : String)
    (h1 : get_api "frappe.desk.query_report.run"
        [("report_name", Value.str report_name),
         ("filters", Value.dict filters)] = Except.error e1)
    (h2 : get_api "frappe.desk.reportview.get_data"
        (pydict (("report_name", Value.str report_name) :: filters)) =
      Except.error e2) :
    execute_report get_api report_name filters =
      (Value.dict [("result", Value.list []),
        ("columns", Value.list []),
        ("message", Value.str ("Report execution failed: " ++ e2 ++
          ". This may be due to ERPNext API limitations or missing report configuration.")),
        ("report_name", Value.str report_name),
        ("filters", Value.dict filters),
        ("error", Value.bool true)],
       ["frappe.desk.query_report.run",
        "frappe.desk.reportview.get_data"]) := by
  unfold execute_report
  rw [h1, h2]

/-- C6 witness: a client failing every call makes execute_report return the
placeholder after trying primary then fallback. -/
theorem C6_report_fallback_witness :
    execute_report (fun _ _ => Except.error "boom") "Sales Register" [] =
      (Value.dict [("result", Value.list []),
        ("columns", Value.list []),
        ("message", Value.str ("Report execution failed: boom" ++
          ". This may be due to ERPNext API limitations or missing report configuration.")),
        ("report_name", Value.str "Sales Register"),
        ("filters", Value.dict []),
        ("error", Value.bool true)],
       ["frappe.desk.query_report.run",
        "frappe.desk.reportview.get_data"]) :=
  C6_report_fallback (fun _ _ => Except.error "boom") "Sales Register" []
    "boom" "boom" rfl rfl

end ERPNextMCP
